import Mathlib

/-!
Shallow embedding of the two source files of pcds-python-migration-tools:

* `update_branch_protection.py` — record model (`Actor`, `BranchProtection`,
  `Repository`), the GraphQL argument encoding of `gh_api_graphql`, the
  `create` / `delete` / `from_repository` operations, and the single-repository
  orchestrator `main`.
* `update_branch_protections.py` — the module-level protection templates,
  `str_to_bool`, `ProtectionGroup` (`from_dict`, `apply_protections`),
  `parse_repo_list`, and the bulk orchestrator `main`.

The second file does `from update_github_settings import ...`; the imported
module is the first file (it defines exactly the imported names
`BranchProtection`, `Repository`, `default_required_status_checks`).

Remote interaction is modelled by passing the data the GitHub API would
return (the fetched `Repository`, the list of existing rules, response
fragments) as explicit parameters, and by recording every transport call in
an event trace.  Python exceptions are modelled by an explicit `PyError`
value; a run's trace keeps the events emitted before the exception was
raised.  The shared module-level `BranchProtection` instances are modelled by
a small heap (`List BranchProtection`) with fixed references, so that frame
properties about them are real statements about the run.
-/

namespace UBP

/-- Python-level exceptions that the embedded code can raise. -/
inductive PyError where
  | typeError
  | keyError (key : String)
  | fileNotFoundError
  deriving DecidableEq, Repr

/-! ## `update_branch_protection.py`: data model -/

/-- Source lines 18-25: the module-level flat list of default required status
check names.  Note that it is a Python `list`, not a `dict`. -/
def default_required_status_checks : List String :=
  [ "standard / Conda (3.10) / Python 3.10: conda",
    "standard / Conda (3.9, true) / Python 3.9: conda",
    "standard / Documentation / Python 3.9: documentation building",
    "standard / Pip (3.10) / Python 3.10: pip",
    "standard / Pip (3.9, true) / Python 3.9: pip",
    "standard / pre-commit checks / pre-commit" ]

/-- Python semantics of subscripting a `list` object with a `str` subscript,
as in `default_required_status_checks[check_name]` (line 101 of
`update_branch_protections.py`): this raises
`TypeError: list indices must be integers or slices, not str`, for every
list and every string subscript. -/
def listIndexStr (_l : List String) (_subscript : String) :
    Except PyError (List String) :=
  .error .typeError

/-- Dataclass `Actor` (line 110): a login with default `""`. -/
structure Actor where
  login : String := ""
  deriving DecidableEq, Repr

/-- Dataclass `BranchProtection` (lines 114-147), field for field and
default for default.  `required_status_checks` defaults to a copy of
`default_required_status_checks`. -/
structure BranchProtection where
  creator : Actor := {}
  id : String := ""
  allows_deletions : Bool := false
  allows_force_pushes : Bool := false
  is_admin_enforced : Bool := false
  required_status_checks : List String := default_required_status_checks
  required_approving_review_count : Int := 1
  requires_approving_reviews : Bool := true
  requires_code_owner_reviews : Bool := false
  requires_status_checks : Bool := true
  restricts_pushes : Bool := true
  restricts_review_dismissals : Bool := false
  dismisses_stale_reviews : Bool := false
  pattern : String := "master"
  deriving DecidableEq, Repr

/-- Python `s.split("/", 1)`: the part before the first `/` and the part
after it (the latter is `""` when there is no slash; the source only ever
uses it on `nameWithOwner` values, which contain a slash). -/
def splitFirstSlash (s : String) : String × String :=
  match s.splitOn "/" with
  | [] => (s, "")
  | [a] => (a, "")
  | a :: rest => (a, String.intercalate "/" rest)

/-- Dataclass `Repository` (lines 234-241), restricted to the fields the
verified operations read. -/
structure Repository where
  id : String
  name : String := ""
  description : String := ""
  full_name : String
  homepage_url : String := ""
  deriving DecidableEq, Repr

/-- `Repository.owner` (lines 243-245): `full_name.split("/", 1)[0]`. -/
def Repository.owner (r : Repository) : String :=
  (splitFirstSlash r.full_name).1

/-- `Repository.repo` (lines 247-249): `full_name.split("/", 1)[1]`. -/
def Repository.repo (r : Repository) : String :=
  (splitFirstSlash r.full_name).2

/-! ## Log messages and the event trace -/

/-- The exact diagnostic lines printed by the two scripts.  `render` below
gives the literal Python strings. -/
inductive LogMsg where
  | sourceDataMalformed
  | deleting
  | dryRunDeleting
  | createdRule (name repoName : String)
  | ruleApplied (name : String)
  | ruleNotApplied
  | repoDataFileMissing
  | showRepositoryInfo
  | creatingEnvironment
  | showRepository
  | createdRuleMsg
  | showNewRule
  deriving DecidableEq, Repr

/-- The literal text each `LogMsg` stands for in the source. -/
def LogMsg.render : LogMsg → String
  | .sourceDataMalformed => "source data malformed, aborting"
  | .deleting => "Deleting branch protection setting"
  | .dryRunDeleting => "(dry run) Deleting branch protection setting"
  | .createdRule name repoName =>
      "created " ++ name ++ " rule for repo: " ++ repoName
  | .ruleApplied name => "-- " ++ name ++ " rule applied"
  | .ruleNotApplied => "-- rule not applied"
  | .repoDataFileMissing => "repo data file does not exist"
  | .showRepositoryInfo => "json.dumps of the showRepositoryInfo response"
  | .creatingEnvironment => "Creating environment gh-pages"
  | .showRepository => "Repository: followed by the repository repr"
  | .createdRuleMsg => "Created rule"
  | .showNewRule => "repr of the newly created rule"

/-- One observable step of a run: a printed line, a GraphQL query, or a
GraphQL mutation issued through the `gh` transport. -/
inductive Event where
  | log (msg : LogMsg)
  | queryRepository (owner repo : String)
  | queryBranchProtections (owner repo : String)
  | deleteBranchProtection (ruleId : String)
  | createBranchProtection (repositoryId : String) (rule : BranchProtection)
  | createEnvironment (repositoryId : String) (name : String)
  deriving DecidableEq, Repr

/-- Trace classifiers: `createBranchProtectionRule` mutations. -/
def isCreateRule : Event → Bool
  | .createBranchProtection _ _ => true
  | _ => false

/-- Trace classifiers: `deleteBranchProtectionRule` mutations. -/
def isDeleteRule : Event → Bool
  | .deleteBranchProtection _ => true
  | _ => false

/-- Trace classifiers: `createEnvironment` mutations. -/
def isCreateEnv : Event → Bool
  | .createEnvironment _ _ => true
  | _ => false

/-- An event is a mutation when it creates or deletes remote state. -/
def isMutation (e : Event) : Bool :=
  isCreateRule e || isDeleteRule e || isCreateEnv e

/-- All mutations of a trace. -/
def mutationsOf (evs : List Event) : List Event := evs.filter isMutation

/-- All rule-creation mutations of a trace. -/
def createsOf (evs : List Event) : List Event := evs.filter isCreateRule

/-- All rule-deletion mutations of a trace. -/
def deletesOf (evs : List Event) : List Event := evs.filter isDeleteRule

/-- All environment-creation mutations of a trace. -/
def envCreatesOf (evs : List Event) : List Event := evs.filter isCreateEnv

/-- Events that narrate a mutation: the mutations themselves plus the log
lines that announce whether a deletion or rule application was performed
(`Deleting ...`, `(dry run) Deleting ...`, `-- X rule applied`,
`-- rule not applied`). -/
def isMutationNarrative (e : Event) : Bool :=
  isMutation e ||
    (match e with
     | .log .deleting => true
     | .log .dryRunDeleting => true
     | .log (.ruleApplied _) => true
     | .log .ruleNotApplied => true
     | _ => false)

/-- A trace with all mutations and mutation-narration lines removed: the
part of the log narrative that does not describe performed mutations. -/
def narrativeCore (evs : List Event) : List Event :=
  evs.filter fun e => !(isMutationNarrative e)

/-! ## `gh_api_graphql` argument encoding (lines 46-76) -/

/-- A scalar keyword-argument value of `gh_api_graphql`: `str`, `bool`, or
`int` (the function's annotation `list[str] | str | bool | int`). -/
inductive GQLScalar where
  | str (s : String)
  | bool (b : Bool)
  | int (n : Int)
  deriving DecidableEq, Repr

/-- A keyword-argument value: a scalar or a `list[str]`. -/
inductive GQLValue where
  | scalar (v : GQLScalar)
  | list (items : List String)
  deriving DecidableEq, Repr

/-- The list branch of `find_params` (lines 57-59): `for item in value:
yield f"{name}[]", item` — one `name[]` pair per element, in order. -/
def expandListParam (name : String) : List String → List (String × GQLScalar)
  | [] => []
  | item :: rest => (name ++ "[]", GQLScalar.str item) :: expandListParam name rest

/-- `find_params` (lines 54-61): yields `("query", query)` first, then each
keyword argument, expanding list values via `expandListParam`. -/
def findParams (query : String) (params : List (String × GQLValue)) :
    List (String × GQLScalar) :=
  ("query", GQLScalar.str query) ::
    params.flatMap fun nv =>
      match nv.2 with
      | .list items => expandListParam nv.1 items
      | .scalar v => [(nv.1, v)]

/-- One character of `value.replace("'", "\x5c'")`: a single quote becomes
backslash-quote, every other character is kept. -/
def escapeChar (c : Char) : List Char :=
  if c = '\'' then ['\\', '\''] else [c]

/-- `value.replace("'", "\x5c'")` (line 65): since the pattern is the single
character `'`, Python's `str.replace` rewrites each quote independently. -/
def escapeSingleQuotes (s : String) : String :=
  String.mk (s.data.flatMap escapeChar)

/-- The argument-encoding loop body (lines 63-73): strings are escaped and
passed as raw `-f` fields, booleans become the literal `"true"`/`"false"`
as typed `-F` fields, and other values (ints) are passed as typed `-F`
fields via `repr` (decimal text for an int). -/
def encodeArg (name : String) : GQLScalar → List String
  | .str s => ["-f", name ++ "=" ++ escapeSingleQuotes s]
  | .bool b => ["-F", name ++ "=" ++ (if b then "true" else "false")]
  | .int n => ["-F", name ++ "=" ++ toString n]

/-- The full `args` list handed to `gh api graphql` (lines 52-73). -/
def buildArgs (query : String) (params : List (String × GQLValue)) :
    List String :=
  (findParams query params).flatMap fun nv => encodeArg nv.1 nv.2

/-- Scanning check that every single quote of a character list is
immediately preceded by a backslash; `prev` is the previous character. -/
def noNakedQuote : Option Char → List Char → Bool
  | _, [] => true
  | prev, c :: rest =>
      (!(c == '\'') || prev == some '\\') && noNakedQuote (some c) rest

/-! ## `BranchProtection` operations -/

/-- The subset of a GraphQL `BranchProtectionRule` response fragment that
`apischema.deserialize` reads into a `BranchProtection`: every field is
optional in the response (absent fields take the dataclass default).  Field
names are the camel-case aliases of lines 119-147. -/
structure BranchProtectionInfo where
  creator : Option Actor := none
  id : Option String := none
  allowsDeletions : Option Bool := none
  allowsForcePushes : Option Bool := none
  isAdminEnforced : Option Bool := none
  requiredStatusCheckContexts : Option (List String) := none
  requiredApprovingReviewCount : Option Int := none
  requiresApprovingReviews : Option Bool := none
  requiresCodeOwnerReviews : Option Bool := none
  requiresStatusChecks : Option Bool := none
  restrictsPushes : Option Bool := none
  restrictsReviewDismissals : Option Bool := none
  dismissesStaleReviews : Option Bool := none
  pattern : Option String := none
  deriving DecidableEq, Repr

/-- `BranchProtection.from_dict` = `apischema.deserialize` (lines 103-106):
each field takes the response value when present, the dataclass default
otherwise. -/
def BranchProtection.from_dict (info : BranchProtectionInfo) : BranchProtection :=
  { creator := info.creator.getD {},
    id := info.id.getD "",
    allows_deletions := info.allowsDeletions.getD false,
    allows_force_pushes := info.allowsForcePushes.getD false,
    is_admin_enforced := info.isAdminEnforced.getD false,
    required_status_checks :=
      info.requiredStatusCheckContexts.getD default_required_status_checks,
    required_approving_review_count :=
      info.requiredApprovingReviewCount.getD 1,
    requires_approving_reviews := info.requiresApprovingReviews.getD true,
    requires_code_owner_reviews := info.requiresCodeOwnerReviews.getD false,
    requires_status_checks := info.requiresStatusChecks.getD true,
    restricts_pushes := info.restrictsPushes.getD true,
    restricts_review_dismissals := info.restrictsReviewDismissals.getD false,
    dismisses_stale_reviews := info.dismissesStaleReviews.getD false,
    pattern := info.pattern.getD "master" }

/-- `BranchProtection.create` (lines 149-168): issues the
`addBranchProtection` mutation with the template's current field values and
returns `from_dict` of the response's `branchProtectionRule` fragment.  The
fragment the server answers with is passed in as `response`.  There is no
check on `self` before the mutation is issued. -/
def BranchProtection.create (self : BranchProtection) (repo : Repository)
    (response : BranchProtectionInfo) : List Event × BranchProtection :=
  ([.createBranchProtection repo.id self], BranchProtection.from_dict response)

/-- `BranchProtection.delete` (lines 170-176): issues the
`deleteBranchProtection` mutation with `ruleId=self.id`, unconditionally —
there is no check that `self.id` is non-empty. -/
def BranchProtection.delete (self : BranchProtection) : List Event :=
  [.deleteBranchProtection self.id]

/-- `BranchProtection.from_repository` (lines 178-189): one query, then
`from_dict` of every node of `branchProtectionRules.nodes`. -/
def BranchProtection.from_repository (repo : Repository)
    (nodes : List BranchProtectionInfo) : List Event × List BranchProtection :=
  ([.queryBranchProtections repo.owner repo.repo],
   nodes.map BranchProtection.from_dict)

/-! ## `update_branch_protections.py`: templates and policy

The module-level `BranchProtection()` instances of lines 12-25 are shared
mutable Python objects.  They are modelled as entries of a heap
(`List BranchProtection`) addressed by fixed references, in module
definition order, so that statements about their (non-)mutation are
statements about a run's final heap. -/

/-- The mutable store of `BranchProtection` objects. -/
abbrev Heap := List BranchProtection

/-- `master_protect = BranchProtection()` (line 12). -/
def master_protect : BranchProtection := {}

/-- `gh_pages_prot` (lines 13-19). -/
def gh_pages_prot : BranchProtection :=
  { pattern := "gh-pages", allows_force_pushes := true,
    dismisses_stale_reviews := false, required_status_checks := [],
    requires_status_checks := false, required_approving_review_count := 0,
    requires_approving_reviews := false }

/-- `all_prot` (lines 20-25). -/
def all_prot : BranchProtection :=
  { pattern := "*", required_status_checks := [],
    dismisses_stale_reviews := false, requires_status_checks := false,
    required_approving_review_count := 0, requires_approving_reviews := false,
    allows_deletions := true }

/-- Heap reference of the shared `master_protect` instance. -/
def masterProtectRef : Nat := 0

/-- Heap reference of the shared `gh_pages_prot` instance. -/
def ghPagesProtRef : Nat := 1

/-- Heap reference of the shared `all_prot` instance. -/
def allProtRef : Nat := 2

/-- The module state after the three template definitions have run. -/
def init_heap : Heap := [master_protect, gh_pages_prot, all_prot]

/-- Python `val.lower()`, embedded per character: lower-case each character
of the string (this agrees with `str.lower` on the ASCII data the CSV
columns hold). -/
def pyLower (s : String) : String := String.mk (s.data.map Char.toLower)

/-- `str_to_bool` (lines 28-29): `val.lower() in ('y', 'yes', 'true')`. -/
def str_to_bool (val : String) : Bool :=
  ["y", "yes", "true"].contains (pyLower val)

/-- Dataclass `ProtectionGroup` (lines 32-39): one CSV row. -/
structure ProtectionGroup where
  owner : String
  repo_name : String
  repo_type : String
  master : Bool := false
  gh_pages : Bool := false
  default : Bool := false
  deriving DecidableEq, Repr

/-- `RULE_MAP` (lines 42-46), as a dict from column name to the heap
reference of the shared template instance it holds. -/
def RULE_MAP : List (String × Nat) :=
  [("master", masterProtectRef), ("gh_pages", ghPagesProtRef),
   ("default", allProtRef)]

/-- `CHECK_NAME_MAP` (lines 49-60): repo type to status-check-list name. -/
def CHECK_NAME_MAP : List (String × String) :=
  [("Python Library", "python"), ("Python Dev", "none"), ("PLC", "twincat"),
   ("TwinCAT Library", "twincat"), ("Backup", "none"), ("Other", "none"),
   ("EPICS IOC", "none"), ("Exempt", "none"), ("External", "none"),
   ("EPICS module", "none")]

/-- Python `dict.get(key, default)` over an association list. -/
def dictGet (m : List (String × String)) (key dflt : String) : String :=
  match m.find? fun kv => kv.1 == key with
  | some kv => kv.2
  | none => dflt

/-- Python `dict[key]` over an association list of heap references:
`none` models a `KeyError`. -/
def dictGetRef (m : List (String × Nat)) (key : String) : Option Nat :=
  (m.find? fun kv => kv.1 == key).map fun kv => kv.2

/-- Lookup of a key in a CSV row (`source[key]`): the row is the
association list a `csv.DictReader` row denotes. -/
def rowGet (source : List (String × String)) (key : String) : Option String :=
  (source.find? fun kv => kv.1 == key).map fun kv => kv.2

/-- `ProtectionGroup.from_dict` (lines 62-76).  The dict comprehension over
the flag fields (`master`, `gh_pages`, `default`, in dataclass field order)
runs first, inside `try/except KeyError`, so a missing flag column prints
`source data malformed, aborting` and re-raises.  The positional fields
`owner`, `repo_name`, `repo_type` are read OUTSIDE the try block, in keyword
order, so a missing one raises a bare `KeyError` with no printed message.
Keys of the row that are not consulted are ignored. -/
def ProtectionGroup.from_dict (source : List (String × String)) :
    List Event × Except PyError ProtectionGroup :=
  match rowGet source "master" with
  | none => ([.log .sourceDataMalformed], .error (.keyError "master"))
  | some m =>
  match rowGet source "gh_pages" with
  | none => ([.log .sourceDataMalformed], .error (.keyError "gh_pages"))
  | some g =>
  match rowGet source "default" with
  | none => ([.log .sourceDataMalformed], .error (.keyError "default"))
  | some d =>
  match rowGet source "owner" with
  | none => ([], .error (.keyError "owner"))
  | some ow =>
  match rowGet source "repo_name" with
  | none => ([], .error (.keyError "repo_name"))
  | some rn =>
  match rowGet source "repo_type" with
  | none => ([], .error (.keyError "repo_type"))
  | some rt =>
      ([], .ok { owner := ow, repo_name := rn, repo_type := rt,
                 master := str_to_bool m, gh_pages := str_to_bool g,
                 default := str_to_bool d })

/-- `getattr(self, name, False)` for the names drawn from `rule_names`
(line 95).  `rule_names` only ever holds the three flag fields. -/
def ProtectionGroup.getFlag (pg : ProtectionGroup) (name : String) : Bool :=
  if name = "master" then pg.master
  else if name = "gh_pages" then pg.gh_pages
  else if name = "default" then pg.default
  else false

/-- The generator `rule_names` (lines 91-92): the dataclass fields minus
`owner`, `repo_name`, `repo_type`, in dataclass order. -/
def rule_names : List String := ["master", "gh_pages", "default"]

/-- The deletion loop of `apply_protections` (lines 84-89): for each
pre-existing rule, either print and call `prot.delete()` (write mode) or
print the dry-run line only. -/
def deleteEvents (write : Bool) (existing : List BranchProtection) :
    List Event :=
  existing.flatMap fun prot =>
    if write then Event.log .deleting :: prot.delete
    else [Event.log .dryRunDeleting]

/-- One iteration of the rule loop of `apply_protections` (lines 94-110)
for column `name`.  Returns the emitted events, the exception raised (if
any), and the heap after the iteration.

For `master` the source allocates a fresh `BranchProtection()`, computes
`check_name = CHECK_NAME_MAP.get(repo_type, 'none')`, and then evaluates
`default_required_status_checks[check_name]` — string-subscripting the flat
list, which raises `TypeError` (see `listIndexStr`) before
`protection_rule.required_status_checks` is assigned and before the
write-mode check is reached.  For the other columns the shared template is
read (never written) from the heap through `RULE_MAP`. -/
def applyRule (pg : ProtectionGroup) (write : Bool) (repo : Repository)
    (name : String) (heap : Heap) : List Event × Option PyError × Heap :=
  if pg.getFlag name then
    let header : List Event := [.log (.createdRule name pg.repo_name)]
    if name = "master" then
      let freshRef := heap.length
      let heap1 := heap ++ [({} : BranchProtection)]
      let check_name := dictGet CHECK_NAME_MAP pg.repo_type "none"
      match listIndexStr default_required_status_checks check_name with
      | .error e => (header, some e, heap1)
      | .ok check_list =>
          let heap2 := heap1.set freshRef
            { ({} : BranchProtection) with required_status_checks := check_list }
          let rule := heap2.getD freshRef {}
          if write then
            (header ++ [.createBranchProtection repo.id rule,
                        .log (.ruleApplied name)], none, heap2)
          else (header ++ [.log .ruleNotApplied], none, heap2)
    else
      match dictGetRef RULE_MAP name with
      | none => (header, some (.keyError name), heap)
      | some ref =>
          let rule := heap.getD ref {}
          if write then
            (header ++ [.createBranchProtection repo.id rule,
                        .log (.ruleApplied name)], none, heap)
          else (header ++ [.log .ruleNotApplied], none, heap)
  else ([], none, heap)

/-- The rule loop of `apply_protections` over the remaining column names;
an uncaught exception aborts the remaining iterations. -/
def runRules (pg : ProtectionGroup) (write : Bool) (repo : Repository) :
    List String → Heap → List Event × Option PyError × Heap
  | [], heap => ([], none, heap)
  | name :: rest, heap =>
    match applyRule pg write repo name heap with
    | (evs, some e, heap1) => (evs, some e, heap1)
    | (evs, none, heap1) =>
        let r := runRules pg write repo rest heap1
        (evs ++ r.1, r.2.1, r.2.2)

/-- The trace prefix of `apply_protections`: `Repository.from_name`
(lines 251-263: one query plus the `print(json.dumps(info))` line) followed
by the `from_repository` query. -/
def preEvents (pg : ProtectionGroup) (repo : Repository) : List Event :=
  [.queryRepository pg.owner pg.repo_name, .log .showRepositoryInfo,
   .queryBranchProtections repo.owner repo.repo]

/-- `ProtectionGroup.apply_protections` (lines 78-110).  `repo` is the
repository the `from_name` query returns and `existing` the rules the
`from_repository` query returns; `heap` is the module state holding the
shared templates.  Result: emitted events, exception (if any), final heap. -/
def applyProtections (pg : ProtectionGroup) (write : Bool)
    (repo : Repository) (existing : List BranchProtection) (heap : Heap) :
    List Event × Option PyError × Heap :=
  let r := runRules pg write repo rule_names heap
  (preEvents pg repo ++ deleteEvents write existing ++ r.1, r.2.1, r.2.2)

/-! ## `parse_repo_list` and the orchestrators -/

/-- A Python bound-method object, as denoted by the attribute access
`data_path.exists` WITHOUT a call: `pathlib.Path.exists` looked up on an
instance.  Any such object is truthy. -/
inductive PyVal where
  | boundMethod
  deriving DecidableEq, Repr

/-- Python truthiness of a bound-method object: always `true`. -/
def truthy : PyVal → Bool
  | .boundMethod => true

/-- The CSV-row loop of `parse_repo_list` (lines 120-124): each row is
parsed with `ProtectionGroup.from_dict`; an exception aborts the loop. -/
def parseRows : List (List (String × String)) →
    List Event × Except PyError (List ProtectionGroup)
  | [] => ([], .ok [])
  | row :: rest =>
    match ProtectionGroup.from_dict row with
    | (evs, .error e) => (evs, .error e)
    | (evs, .ok pg) =>
        let r := parseRows rest
        (evs ++ r.1, r.2.map fun pgs => pg :: pgs)

/-- `parse_repo_list` (lines 113-125).  The filesystem is `fs`: the list of
CSV rows the file at a path holds, or `none` when the file does not exist.
The source tests `if not data_path.exists:` — `exists` without parentheses
is the bound method object, which is always truthy, so the condition is
always false and the `repo data file does not exist` branch never runs; a
missing file instead raises `FileNotFoundError` from `open`.  `.ok none`
models the bare `return` of the dead branch. -/
def parse_repo_list (fs : String → Option (List (List (String × String))))
    (path : String) :
    List Event × Except PyError (Option (List ProtectionGroup)) :=
  if !(truthy PyVal.boundMethod) then
    ([.log .repoDataFileMissing], .ok none)
  else
    match fs path with
    | none => ([], .error .fileNotFoundError)
    | some rows =>
        let r := parseRows rows
        (r.1, r.2.map fun pgs => some pgs)

/-- The row loop of the bulk branch of `main` (lines 138-143 of
`update_branch_protections.py`): `apply_protections` for every parsed row,
with the remote modelled by `fetch` (the repository and existing rules each
row's queries return); an uncaught exception aborts the batch. -/
def runRows (fetch : ProtectionGroup → Repository × List BranchProtection)
    (write : Bool) :
    List ProtectionGroup → Heap → List Event × Option PyError × Heap
  | [], heap => ([], none, heap)
  | pg :: rest, heap =>
    let repoEx := fetch pg
    match applyProtections pg write repoEx.1 repoEx.2 heap with
    | (evs, some e, heap1) => (evs, some e, heap1)
    | (evs, none, heap1) =>
        let r := runRows fetch write rest heap1
        (evs ++ r.1, r.2.1, r.2.2)

/-- Bulk-mode `main`: the row loop started on the initial module state. -/
def mainBulk (fetch : ProtectionGroup → Repository × List BranchProtection)
    (rows : List ProtectionGroup) (write : Bool) :
    List Event × Option PyError × Heap :=
  runRows fetch write rows init_heap

/-- The single-repository orchestrator `main` of
`update_branch_protection.py` (lines 276-289): fetch the repository, create
the `gh-pages` environment, print the repository, delete every existing
rule, then create one fresh default `BranchProtection()` rule. -/
def mainSingle (owner repo_name : String) (repo : Repository)
    (existing : List BranchProtection) : List Event :=
  [Event.queryRepository owner repo_name, .log .showRepositoryInfo,
   .log .creatingEnvironment, .createEnvironment repo.id "gh-pages",
   .log .showRepository,
   .queryBranchProtections repo.owner repo.repo]
  ++ (existing.flatMap fun prot => Event.log .deleting :: prot.delete)
  ++ [Event.createBranchProtection repo.id ({} : BranchProtection),
      .log .createdRuleMsg, .log .showNewRule]

/-! ## Concrete fixtures used by the closed theorems -/

/-- The required CSV columns of a `ProtectionGroup` row. -/
def REQUIRED_COLUMNS : List String :=
  ["owner", "repo_name", "repo_type", "master", "gh_pages", "default"]

/-- A concrete repository, standing for what `Repository.from_name` returns
for owner `org`, repo `r`. -/
def sampleRepo : Repository := { id := "RID", full_name := "org/r" }

/-- The CSV row of the spec's worked example: owner `org`, repo `r`, type
`Python Library`, `master=yes`, `gh_pages=no`, `default=true`. -/
def c1_row : List (String × String) :=
  [("owner", "org"), ("repo_name", "r"), ("repo_type", "Python Library"),
   ("master", "yes"), ("gh_pages", "no"), ("default", "true")]

/-- A row with every required column except `owner`. -/
def c8_missing_owner_row : List (String × String) :=
  [("repo_name", "r"), ("repo_type", "Other"),
   ("master", "yes"), ("gh_pages", "no"), ("default", "no")]

/-! ## Helper lemmas -/

/-- `getattr` on the `master` column reads the `master` flag. -/
lemma getFlag_master (pg : ProtectionGroup) : pg.getFlag "master" = pg.master := rfl

/-- `getattr` on the `gh_pages` column reads the `gh_pages` flag. -/
lemma getFlag_gh_pages (pg : ProtectionGroup) :
    pg.getFlag "gh_pages" = pg.gh_pages := rfl

/-- `getattr` on the `default` column reads the `default` flag. -/
lemma getFlag_default (pg : ProtectionGroup) :
    pg.getFlag "default" = pg.default := rfl

/-- A rule column whose flag is false contributes nothing. -/
lemma applyRule_not_flagged (pg : ProtectionGroup) (write : Bool)
    (repo : Repository) (name : String) (heap : Heap)
    (h : pg.getFlag name = false) :
    applyRule pg write repo name heap = ([], none, heap) := by
  unfold applyRule
  rw [h]
  rfl

/-- The `master` column with its flag set: the fresh template is allocated,
then the string subscript of the flat check list raises `TypeError` before
any mutation and before the write-mode check. -/
lemma applyRule_master_true (pg : ProtectionGroup) (write : Bool)
    (repo : Repository) (heap : Heap) (h : pg.master = true) :
    applyRule pg write repo "master" heap =
      ([Event.log (.createdRule "master" pg.repo_name)], some .typeError,
       heap ++ [({} : BranchProtection)]) := by
  unfold applyRule
  rw [getFlag_master, h]
  rfl

/-- The `gh_pages` column with its flag set reads the shared template from
the heap and creates it only in write mode. -/
lemma applyRule_gh_pages_true (pg : ProtectionGroup) (write : Bool)
    (repo : Repository) (heap : Heap) (h : pg.gh_pages = true) :
    applyRule pg write repo "gh_pages" heap =
      if write then
        ([Event.log (.createdRule "gh_pages" pg.repo_name),
          .createBranchProtection repo.id (heap.getD ghPagesProtRef {}),
          .log (.ruleApplied "gh_pages")], none, heap)
      else
        ([Event.log (.createdRule "gh_pages" pg.repo_name),
          .log .ruleNotApplied], none, heap) := by
  unfold applyRule
  rw [getFlag_gh_pages, h]
  cases write <;> rfl

/-- The `default` column with its flag set reads the shared `*` template
from the heap and creates it only in write mode. -/
lemma applyRule_default_true (pg : ProtectionGroup) (write : Bool)
    (repo : Repository) (heap : Heap) (h : pg.default = true) :
    applyRule pg write repo "default" heap =
      if write then
        ([Event.log (.createdRule "default" pg.repo_name),
          .createBranchProtection repo.id (heap.getD allProtRef {}),
          .log (.ruleApplied "default")], none, heap)
      else
        ([Event.log (.createdRule "default" pg.repo_name),
          .log .ruleNotApplied], none, heap) := by
  unfold applyRule
  rw [getFlag_default, h]
  cases write <;> rfl

/-- The dry-run deletion loop emits no mutations. -/
lemma mutationsOf_deleteEvents_false (existing : List BranchProtection) :
    mutationsOf (deleteEvents false existing) = [] := by
  induction existing with
  | nil => rfl
  | cons p rest ih =>
      simpa [deleteEvents, mutationsOf, isMutation, isCreateRule, isDeleteRule,
             isCreateEnv] using ih

/-- Every event of the deletion loop, in either mode, is mutation
narration, so the narrative core of the loop is empty. -/
lemma narrativeCore_deleteEvents (write : Bool)
    (existing : List BranchProtection) :
    narrativeCore (deleteEvents write existing) = [] := by
  induction existing with
  | nil => rfl
  | cons p rest ih =>
      cases write <;>
        simpa [deleteEvents, narrativeCore, isMutationNarrative, isMutation,
               isCreateRule, isDeleteRule, isCreateEnv,
               BranchProtection.delete] using ih

/-- In write mode the deletion loop deletes exactly the pre-existing rules,
in order, by their ids. -/
lemma deletesOf_deleteEvents_true (existing : List BranchProtection) :
    deletesOf (deleteEvents true existing)
      = existing.map fun p => Event.deleteBranchProtection p.id := by
  induction existing with
  | nil => rfl
  | cons p rest ih =>
      simpa [deleteEvents, deletesOf, isDeleteRule,
             BranchProtection.delete] using ih

/-- The deletion loop never creates rules. -/
lemma createsOf_deleteEvents (write : Bool)
    (existing : List BranchProtection) :
    createsOf (deleteEvents write existing) = [] := by
  induction existing with
  | nil => rfl
  | cons p rest ih =>
      cases write <;>
        simpa [deleteEvents, createsOf, isCreateRule,
               BranchProtection.delete] using ih

/-- The deletion loop never creates environments. -/
lemma envCreatesOf_deleteEvents (write : Bool)
    (existing : List BranchProtection) :
    envCreatesOf (deleteEvents write existing) = [] := by
  induction existing with
  | nil => rfl
  | cons p rest ih =>
      cases write <;>
        simpa [deleteEvents, envCreatesOf, isCreateEnv,
               BranchProtection.delete] using ih

/-- In the output of the quote-escaping map, every single quote is
immediately preceded by a backslash, whatever character came before. -/
lemma noNakedQuote_escapeChar (l : List Char) :
    ∀ prev, noNakedQuote prev (l.flatMap escapeChar) = true := by
  induction l with
  | nil => intro prev; rfl
  | cons c t ih =>
      intro prev
      by_cases h : c = '\''
      · subst h
        exact ih (some '\'')
      · show noNakedQuote prev (escapeChar c ++ t.flatMap escapeChar) = true
        rw [escapeChar, if_neg h]
        show ((!(c == '\'') || prev == some '\\')
              && noNakedQuote (some c) (t.flatMap escapeChar)) = true
        rw [beq_eq_false_iff_ne.mpr h]
        simpa using ih (some c)

/-- The escaped form of any string has no unescaped single quote. -/
lemma escapeSingleQuotes_escaped (s : String) :
    noNakedQuote none (escapeSingleQuotes s).data = true :=
  noNakedQuote_escapeChar s.data none

/-- The list-expansion loop is elementwise: one `name[]` argument per list
element, in list order. -/
lemma expandListParam_eq_map (name : String) (items : List String) :
    expandListParam name items
      = items.map fun item => (name ++ "[]", GQLScalar.str item) := by
  induction items with
  | nil => rfl
  | cons item rest ih => simpa [expandListParam] using ih

/-- Claim C4: in the argument encoding of `gh_api_graphql`, every
string-valued parameter is transmitted with each single-quote character
escaped (the `-f` field holds `escapeSingleQuotes` of the value, whose
output has no unescaped quote); every boolean parameter is encoded as the
literal string `true` or `false`; and every list-valued parameter of length
N is expanded into exactly N repeated `name[]` arguments, one per element
in list order. -/
theorem C4_graphql_argument_encoding :
    (∀ name s, encodeArg name (.str s)
        = ["-f", name ++ "=" ++ escapeSingleQuotes s]
      ∧ noNakedQuote none (escapeSingleQuotes s).data = true)
  ∧ (∀ name b, encodeArg name (.bool b)
        = ["-F", name ++ "=" ++ (if b then "true" else "false")])
  ∧ (∀ name items,
        expandListParam name items
          = items.map (fun item => (name ++ "[]", GQLScalar.str item))
      ∧ (expandListParam name items).length = items.length) := by
  refine ⟨fun name s => ⟨rfl, escapeSingleQuotes_escaped s⟩,
          fun name b => rfl,
          fun name items => ⟨expandListParam_eq_map name items, ?_⟩⟩
  rw [expandListParam_eq_map]
  exact items.length_map _

/-- Claim C6, counterexample: the code does not establish the claimed
invariant.  `create` and `from_repository` return plain `from_dict`
deserializations with default `id := ""`, so when the response fragment
carries no `id` field the "realized" instance has an empty id. -/
theorem C6_counterexample :
    (BranchProtection.create {} sampleRepo {}).2.id = ""
  ∧ ((BranchProtection.from_repository sampleRepo [{}]).2.map
        fun bp => bp.id) = [""] :=
  ⟨rfl, rfl⟩

/-- Claim C6, amended: an unrealized template (direct construction) has
empty id and the default creator; an instance returned by `create` or
`from_repository` carries exactly the id and creator of the response
fragment, defaulting to the empty id and default creator when the fragment
omits them — a non-empty id is guaranteed only when the response supplies
one. -/
theorem C6_realized_fields_from_response (info : BranchProtectionInfo)
    (self : BranchProtection) (repo : Repository) :
    ({} : BranchProtection).id = ""
  ∧ ({} : BranchProtection).creator = ({} : Actor)
  ∧ (BranchProtection.create self repo info).2.id = info.id.getD ""
  ∧ (BranchProtection.create self repo info).2.creator = info.creator.getD {}
  ∧ ((BranchProtection.from_repository repo [info]).2.map fun bp => bp.id)
      = [info.id.getD ""] :=
  ⟨rfl, rfl, rfl, rfl, rfl⟩

/-- Claim C7, counterexample: `delete` on an unrealized template (empty id)
is not a guarded usage error — it issues the `deleteBranchProtection`
mutation with an empty `ruleId`. -/
theorem C7_counterexample :
    ({} : BranchProtection).id = ""
  ∧ BranchProtection.delete {} = [Event.deleteBranchProtection ""] :=
  ⟨rfl, rfl⟩

/-- Claim C7, amended: `delete` issues the `deleteBranchProtection`
mutation with the instance's current id unconditionally; there is no
precondition check on the id, so an unrealized template's delete issues the
mutation with an empty rule id. -/
theorem C7_delete_unconditional (bp : BranchProtection) :
    bp.delete = [Event.deleteBranchProtection bp.id] := rfl

/-- Filters distribute over trace concatenation: mutations. -/
lemma mutationsOf_append (l1 l2 : List Event) :
    mutationsOf (l1 ++ l2) = mutationsOf l1 ++ mutationsOf l2 :=
  List.filter_append _ _

/-- Filters distribute over trace concatenation: narrative core. -/
lemma narrativeCore_append (l1 l2 : List Event) :
    narrativeCore (l1 ++ l2) = narrativeCore l1 ++ narrativeCore l2 :=
  List.filter_append _ _

/-- Filters distribute over trace concatenation: rule creations. -/
lemma createsOf_append (l1 l2 : List Event) :
    createsOf (l1 ++ l2) = createsOf l1 ++ createsOf l2 :=
  List.filter_append _ _

/-- Filters distribute over trace concatenation: rule deletions. -/
lemma deletesOf_append (l1 l2 : List Event) :
    deletesOf (l1 ++ l2) = deletesOf l1 ++ deletesOf l2 :=
  List.filter_append _ _

/-- Filters distribute over trace concatenation: environment creations. -/
lemma envCreatesOf_append (l1 l2 : List Event) :
    envCreatesOf (l1 ++ l2) = envCreatesOf l1 ++ envCreatesOf l2 :=
  List.filter_append _ _

/-- The two queries and the informational print before the loops are
neither mutations nor mutation narration. -/
lemma mutationsOf_preEvents (pg : ProtectionGroup) (repo : Repository) :
    mutationsOf (preEvents pg repo) = [] := rfl

/-- The pre-loop trace contains no rule deletions. -/
lemma deletesOf_preEvents (pg : ProtectionGroup) (repo : Repository) :
    deletesOf (preEvents pg repo) = [] := rfl

/-- The pre-loop trace contains no rule creations. -/
lemma createsOf_preEvents (pg : ProtectionGroup) (repo : Repository) :
    createsOf (preEvents pg repo) = [] := rfl

/-- The pre-loop trace contains no environment creations. -/
lemma envCreatesOf_preEvents (pg : ProtectionGroup) (repo : Repository) :
    envCreatesOf (preEvents pg repo) = [] := rfl

/-- The shared gh-pages template sits at its reference in the initial
module state. -/
@[simp] lemma init_heap_getD_ghPages :
    init_heap.getD ghPagesProtRef ({} : BranchProtection) = gh_pages_prot := rfl

/-- The shared `*` template sits at its reference in the initial module
state. -/
@[simp] lemma init_heap_getD_allProt :
    init_heap.getD allProtRef ({} : BranchProtection) = all_prot := rfl

/-- The gh-pages template lookup, in `getElem?` normal form. -/
@[simp] lemma init_heap_getElem_ghPages :
    init_heap[ghPagesProtRef]?.getD ({} : BranchProtection) = gh_pages_prot := rfl

/-- The `*` template lookup, in `getElem?` normal form. -/
@[simp] lemma init_heap_getElem_allProt :
    init_heap[allProtRef]?.getD ({} : BranchProtection) = all_prot := rfl

/-- One rule-loop iteration, dry run vs write mode: the dry run emits no
mutations, both modes have the same narrative core, the same exception
outcome, and the same final heap. -/
lemma applyRule_dry (pg : ProtectionGroup) (repo : Repository)
    (name : String) (heap : Heap) :
    mutationsOf (applyRule pg false repo name heap).1 = []
  ∧ narrativeCore (applyRule pg false repo name heap).1
      = narrativeCore (applyRule pg true repo name heap).1
  ∧ (applyRule pg false repo name heap).2.1
      = (applyRule pg true repo name heap).2.1
  ∧ (applyRule pg false repo name heap).2.2
      = (applyRule pg true repo name heap).2.2 := by
  cases hfl : pg.getFlag name with
  | false =>
      rw [applyRule_not_flagged pg false repo name heap hfl,
          applyRule_not_flagged pg true repo name heap hfl]
      exact ⟨rfl, rfl, rfl, rfl⟩
  | true =>
      by_cases hm : name = "master"
      · subst hm
        rw [getFlag_master] at hfl
        rw [applyRule_master_true pg false repo heap hfl,
            applyRule_master_true pg true repo heap hfl]
        exact ⟨rfl, rfl, rfl, rfl⟩
      · unfold applyRule
        rcases hdg : dictGetRef RULE_MAP name with _ | ref <;>
          simp [hfl, hm, hdg, mutationsOf, narrativeCore, isMutationNarrative,
                isMutation, isCreateRule, isDeleteRule, isCreateEnv]

/-- The rule loop, dry run vs write mode: no mutations in the dry run, the
same narrative core, exception outcome, and final heap in both modes. -/
lemma runRules_dry (pg : ProtectionGroup) (repo : Repository) :
    ∀ (names : List String) (heap : Heap),
    mutationsOf (runRules pg false repo names heap).1 = []
  ∧ narrativeCore (runRules pg false repo names heap).1
      = narrativeCore (runRules pg true repo names heap).1
  ∧ (runRules pg false repo names heap).2.1
      = (runRules pg true repo names heap).2.1
  ∧ (runRules pg false repo names heap).2.2
      = (runRules pg true repo names heap).2.2 := by
  intro names
  induction names with
  | nil => intro heap; exact ⟨rfl, rfl, rfl, rfl⟩
  | cons name rest ih =>
      intro heap
      obtain ⟨a1, a2, a3, a4⟩ := applyRule_dry pg repo name heap
      rcases hF : applyRule pg false repo name heap with ⟨evsF, errF, heapF⟩
      rcases hT : applyRule pg true repo name heap with ⟨evsT, errT, heapT⟩
      rw [hF] at a1 a2 a3 a4
      rw [hT] at a2 a3 a4
      have a1' : mutationsOf evsF = [] := a1
      have a2' : narrativeCore evsF = narrativeCore evsT := a2
      have a3' : errF = errT := a3
      have a4' : heapF = heapT := a4
      subst a3'
      subst a4'
      cases errF with
      | some e =>
          refine ⟨?_, ?_, ?_, ?_⟩ <;> simp [runRules, hF, hT, a1', a2']
      | none =>
          obtain ⟨b1, b2, b3, b4⟩ := ih heapF
          refine ⟨?_, ?_, ?_, ?_⟩ <;>
            simp [runRules, hF, hT, mutationsOf_append, narrativeCore_append,
                  a1', a2', b1, b2, b3, b4]

/-- Claim C3: with `write=False`, `apply_protections` issues no create or
delete mutation to the transport, raises exactly what the `write=True` run
raises, and — once the mutations and the log lines that narrate them (the
`Deleting`/dry-run-deleting lines and the rule applied / not-applied
lines) are set aside — produces the identical trace. -/
theorem C3_dry_run_no_mutations_same_narrative (pg : ProtectionGroup)
    (repo : Repository) (existing : List BranchProtection) (heap : Heap) :
    mutationsOf (applyProtections pg false repo existing heap).1 = []
  ∧ narrativeCore (applyProtections pg false repo existing heap).1
      = narrativeCore (applyProtections pg true repo existing heap).1
  ∧ (applyProtections pg false repo existing heap).2.1
      = (applyProtections pg true repo existing heap).2.1 := by
  obtain ⟨r1, r2, r3, r4⟩ := runRules_dry pg repo rule_names heap
  refine ⟨?_, ?_, r3⟩
  · show mutationsOf (preEvents pg repo ++ deleteEvents false existing
        ++ (runRules pg false repo rule_names heap).1) = []
    rw [mutationsOf_append, mutationsOf_append, mutationsOf_preEvents,
        mutationsOf_deleteEvents_false, r1]
    rfl
  · show narrativeCore (preEvents pg repo ++ deleteEvents false existing
        ++ (runRules pg false repo rule_names heap).1)
      = narrativeCore (preEvents pg repo ++ deleteEvents true existing
        ++ (runRules pg true repo rule_names heap).1)
    rw [narrativeCore_append, narrativeCore_append, narrativeCore_append,
        narrativeCore_append, narrativeCore_deleteEvents,
        narrativeCore_deleteEvents, r2]

/-- Claim C1 (evaluation at the failing input): the spec's worked example
row parses to the expected `ProtectionGroup`, and `CHECK_NAME_MAP`
resolves `Python Library` to `python`; but `apply_protections` then
raises `TypeError` at `default_required_status_checks[check_name]`
(string subscript on the flat list) and issues zero rule creations — it
does not apply the master and default rules. -/
theorem C1_master_check_list_type_error :
    ProtectionGroup.from_dict c1_row
      = ([], .ok { owner := "org", repo_name := "r",
                   repo_type := "Python Library", master := true,
                   gh_pages := false, default := true })
  ∧ dictGet CHECK_NAME_MAP "Python Library" "none" = "python"
  ∧ (applyProtections
        { owner := "org", repo_name := "r", repo_type := "Python Library",
          master := true, gh_pages := false, default := true }
        true sampleRepo [] init_heap).2.1 = some .typeError
  ∧ createsOf (applyProtections
        { owner := "org", repo_name := "r", repo_type := "Python Library",
          master := true, gh_pages := false, default := true }
        true sampleRepo [] init_heap).1 = [] := by
  exact ⟨rfl, rfl, rfl, rfl⟩

/-- Claim C2 (evaluation): for any repo type string, `CHECK_NAME_MAP.get`
does fall back to the key `none` when the type is unknown (shown at a
concrete unlisted type), but every `apply_protections` run with the master
flag set — whatever the repo type — raises `TypeError` at the string
subscript of the flat check list instead of resolving a `none` check
list. -/
theorem C2_unrecognized_repo_type_type_error (rt ow rn : String)
    (repo : Repository) (existing : List BranchProtection) (heap : Heap) :
    dictGet CHECK_NAME_MAP "Some Unlisted Type" "none" = "none"
  ∧ (applyProtections
        { owner := ow, repo_name := rn, repo_type := rt,
          master := true, gh_pages := false, default := false }
        true repo existing heap).2.1 = some PyError.typeError := by
  refine ⟨rfl, ?_⟩
  have h1 := applyRule_master_true
    { owner := ow, repo_name := rn, repo_type := rt, master := true,
      gh_pages := false, default := false } true repo heap rfl
  show (runRules
      { owner := ow, repo_name := rn, repo_type := rt, master := true,
        gh_pages := false, default := false }
      true repo rule_names heap).2.1 = some PyError.typeError
  simp [rule_names, runRules, h1]

/-- One rule-loop iteration only ever appends to the heap (the single
allocation site is the fresh `BranchProtection()` of the master branch);
existing heap entries are never overwritten. -/
lemma applyRule_heap_extends (pg : ProtectionGroup) (write : Bool)
    (repo : Repository) (name : String) (heap : Heap) :
    ∃ t, (applyRule pg write repo name heap).2.2 = heap ++ t := by
  cases hfl : pg.getFlag name with
  | false =>
      exact ⟨[], by rw [applyRule_not_flagged pg write repo name heap hfl]; simp⟩
  | true =>
      by_cases hm : name = "master"
      · subst hm
        rw [getFlag_master] at hfl
        exact ⟨[{}], by rw [applyRule_master_true pg write repo heap hfl]⟩
      · refine ⟨[], ?_⟩
        unfold applyRule
        rcases hdg : dictGetRef RULE_MAP name with _ | ref <;>
          cases write <;> simp [hfl, hm, hdg]

/-- The rule loop only ever appends to the heap. -/
lemma runRules_heap_extends (pg : ProtectionGroup) (write : Bool)
    (repo : Repository) :
    ∀ (names : List String) (heap : Heap),
    ∃ t, (runRules pg write repo names heap).2.2 = heap ++ t := by
  intro names
  induction names with
  | nil => intro heap; exact ⟨[], by simp [runRules]⟩
  | cons name rest ih =>
      intro heap
      obtain ⟨t1, h1⟩ := applyRule_heap_extends pg write repo name heap
      rcases hA : applyRule pg write repo name heap with ⟨evs, err, heap1⟩
      rw [hA] at h1
      have h1' : heap1 = heap ++ t1 := h1
      cases err with
      | some e => exact ⟨t1, by simp [runRules, hA, h1']⟩
      | none =>
          obtain ⟨t2, h2⟩ := ih heap1
          refine ⟨t1 ++ t2, ?_⟩
          show (runRules pg write repo (name :: rest) heap).2.2
              = heap ++ (t1 ++ t2)
          simp only [runRules, hA]
          rw [h2, h1', List.append_assoc]

/-- `apply_protections` only ever appends to the heap. -/
lemma applyProtections_heap_extends (pg : ProtectionGroup) (write : Bool)
    (repo : Repository) (existing : List BranchProtection) (heap : Heap) :
    ∃ t, (applyProtections pg write repo existing heap).2.2 = heap ++ t :=
  runRules_heap_extends pg write repo rule_names heap

/-- The bulk row loop only ever appends to the heap. -/
lemma runRows_heap_extends
    (fetch : ProtectionGroup → Repository × List BranchProtection)
    (write : Bool) :
    ∀ (rows : List ProtectionGroup) (heap : Heap),
    ∃ t, (runRows fetch write rows heap).2.2 = heap ++ t := by
  intro rows
  induction rows with
  | nil => intro heap; exact ⟨[], by simp [runRows]⟩
  | cons pg rest ih =>
      intro heap
      obtain ⟨t1, h1⟩ := applyProtections_heap_extends pg write
        (fetch pg).1 (fetch pg).2 heap
      rcases hA : applyProtections pg write (fetch pg).1 (fetch pg).2 heap
        with ⟨evs, err, heap1⟩
      rw [hA] at h1
      have h1' : heap1 = heap ++ t1 := h1
      cases err with
      | some e => exact ⟨t1, by simp [runRows, hA, h1']⟩
      | none =>
          obtain ⟨t2, h2⟩ := ih heap1
          refine ⟨t1 ++ t2, ?_⟩
          show (runRows fetch write (pg :: rest) heap).2.2
              = heap ++ (t1 ++ t2)
          simp only [runRows, hA]
          rw [h2, h1', List.append_assoc]

/-- Claim C9: across any bulk run — any sequence of rows, either write
mode, any remote — the heap entries of the shared `gh_pages_prot` and
`all_prot` templates still hold exactly their initial construction values:
`apply_protections` never mutates the shared module-level templates. -/
theorem C9_shared_templates_unchanged
    (fetch : ProtectionGroup → Repository × List BranchProtection)
    (rows : List ProtectionGroup) (write : Bool) :
    (mainBulk fetch rows write).2.2.get? ghPagesProtRef = some gh_pages_prot
  ∧ (mainBulk fetch rows write).2.2.get? allProtRef = some all_prot := by
  obtain ⟨t, ht⟩ := runRows_heap_extends fetch write rows init_heap
  have h : (mainBulk fetch rows write).2.2 = init_heap ++ t := ht
  rw [h]
  exact ⟨rfl, rfl⟩

/-- The write-mode rule loop from the initial module state, when the
master flag is off: the gh-pages and `*` creations for the set flags, in
column order, and no exception. -/
lemma runRules_write_no_master (pg : ProtectionGroup) (repo : Repository)
    (h : pg.master = false) :
    (runRules pg true repo rule_names init_heap).1
      = (if pg.gh_pages then
           [Event.log (.createdRule "gh_pages" pg.repo_name),
            .createBranchProtection repo.id gh_pages_prot,
            .log (.ruleApplied "gh_pages")] else [])
        ++ (if pg.default then
           [Event.log (.createdRule "default" pg.repo_name),
            .createBranchProtection repo.id all_prot,
            .log (.ruleApplied "default")] else [])
  ∧ (runRules pg true repo rule_names init_heap).2.1 = none := by
  have hM := applyRule_not_flagged pg true repo "master" init_heap
    (by rw [getFlag_master, h])
  cases hg : pg.gh_pages with
  | false =>
      have h2 := applyRule_not_flagged pg true repo "gh_pages" init_heap
        (by rw [getFlag_gh_pages, hg])
      cases hd : pg.default with
      | false =>
          have h3 := applyRule_not_flagged pg true repo "default" init_heap
            (by rw [getFlag_default, hd])
          constructor <;> simp [rule_names, runRules, hM, h2, h3]
      | true =>
          have h3 := applyRule_default_true pg true repo init_heap hd
          constructor <;> simp [rule_names, runRules, hM, h2, h3]
  | true =>
      have h2 := applyRule_gh_pages_true pg true repo init_heap hg
      cases hd : pg.default with
      | false =>
          have h3 := applyRule_not_flagged pg true repo "default" init_heap
            (by rw [getFlag_default, hd])
          constructor <;> simp [rule_names, runRules, hM, h2, h3]
      | true =>
          have h3 := applyRule_default_true pg true repo init_heap hd
          constructor <;> simp [rule_names, runRules, hM, h2, h3]

/-- Claim C5, counterexample: for a concrete bulk row (type `Other`,
gh_pages and default set), write-mode `apply_protections` — the whole of
bulk mode's per-row processing — issues no `createEnvironment` mutation,
while the single-repository orchestrator does create the `gh-pages`
deployment environment; the per-row orchestration is not the same. -/
theorem C5_counterexample :
    envCreatesOf (applyProtections
        { owner := "org", repo_name := "r", repo_type := "Other",
          master := false, gh_pages := true, default := true }
        true sampleRepo [] init_heap).1 = []
  ∧ envCreatesOf (mainSingle "org" "r" sampleRepo [])
      = [Event.createEnvironment "RID" "gh-pages"] :=
  ⟨rfl, rfl⟩

/-- Claim C5, amended: for every bulk row whose master flag is off (rows
with the master flag on crash in the check-list lookup, claims C1/C2),
write-mode per-row processing deletes every pre-existing rule of that
row's repository, in order, and creates the configured rules for the set
flags — but it never creates the gh-pages deployment environment; that
step exists only in the single-repository orchestrator. -/
theorem C5_bulk_row_orchestration_amended (pg : ProtectionGroup)
    (repo : Repository) (existing : List BranchProtection)
    (h : pg.master = false) :
    deletesOf (applyProtections pg true repo existing init_heap).1
      = existing.map (fun p => Event.deleteBranchProtection p.id)
  ∧ createsOf (applyProtections pg true repo existing init_heap).1
      = (if pg.gh_pages then
           [Event.createBranchProtection repo.id gh_pages_prot] else [])
        ++ (if pg.default then
           [Event.createBranchProtection repo.id all_prot] else [])
  ∧ envCreatesOf (applyProtections pg true repo existing init_heap).1 = []
  ∧ (applyProtections pg true repo existing init_heap).2.1 = none := by
  obtain ⟨hev, herr⟩ := runRules_write_no_master pg repo h
  refine ⟨?_, ?_, ?_, herr⟩
  · show deletesOf (preEvents pg repo ++ deleteEvents true existing
        ++ (runRules pg true repo rule_names init_heap).1) = _
    rw [deletesOf_append, deletesOf_append, deletesOf_preEvents,
        deletesOf_deleteEvents_true, hev]
    cases pg.gh_pages <;> cases pg.default <;>
      simp [deletesOf, isDeleteRule]
  · show createsOf (preEvents pg repo ++ deleteEvents true existing
        ++ (runRules pg true repo rule_names init_heap).1) = _
    rw [createsOf_append, createsOf_append, createsOf_preEvents,
        createsOf_deleteEvents, hev]
    cases pg.gh_pages <;> cases pg.default <;>
      simp [createsOf, isCreateRule]
  · show envCreatesOf (preEvents pg repo ++ deleteEvents true existing
        ++ (runRules pg true repo rule_names init_heap).1) = []
    rw [envCreatesOf_append, envCreatesOf_append, envCreatesOf_preEvents,
        envCreatesOf_deleteEvents, hev]
    cases pg.gh_pages <;> cases pg.default <;>
      simp [envCreatesOf, isCreateEnv]

/-- Witness for the amended claim C5, at a concrete row, repository, and
pre-existing rule. -/
theorem C5_amended_witness :
    deletesOf (applyProtections
        { owner := "org", repo_name := "r", repo_type := "Other",
          master := false, gh_pages := true, default := true }
        true sampleRepo [{ id := "X" }] init_heap).1
      = [Event.deleteBranchProtection "X"]
  ∧ createsOf (applyProtections
        { owner := "org", repo_name := "r", repo_type := "Other",
          master := false, gh_pages := true, default := true }
        true sampleRepo [{ id := "X" }] init_heap).1
      = [Event.createBranchProtection "RID" gh_pages_prot,
         Event.createBranchProtection "RID" all_prot]
  ∧ envCreatesOf (applyProtections
        { owner := "org", repo_name := "r", repo_type := "Other",
          master := false, gh_pages := true, default := true }
        true sampleRepo [{ id := "X" }] init_heap).1 = []
  ∧ (applyProtections
        { owner := "org", repo_name := "r", repo_type := "Other",
          master := false, gh_pages := true, default := true }
        true sampleRepo [{ id := "X" }] init_heap).2.1 = none := by
  have h := C5_bulk_row_orchestration_amended
    { owner := "org", repo_name := "r", repo_type := "Other",
      master := false, gh_pages := true, default := true }
    sampleRepo [{ id := "X" }] rfl
  simpa [sampleRepo] using h

/-- A row key different from the looked-up column is skipped by the
lookup. -/
lemma rowGet_cons_ne (k v key : String)
    (source : List (String × String)) (h : k ≠ key) :
    rowGet ((k, v) :: source) key = rowGet source key := by
  simp [rowGet, List.find?, beq_eq_false_iff_ne.mpr h]

/-- Claim C8, counterexample: a row holding every required column except
`owner` makes `from_dict` raise `KeyError('owner')` with an empty trace —
no message is logged before the raise, because the positional columns are
read outside the `try` block. -/
theorem C8_counterexample :
    ProtectionGroup.from_dict c8_missing_owner_row
      = ([], .error (.keyError "owner")) := rfl

/-- Claim C8, amended: a row missing one of the flag columns (`master`,
`gh_pages`, `default` — checked in that order) logs
`source data malformed, aborting` and then raises; a row with the flag
columns present but missing `owner`, `repo_name` or `repo_type` raises a
bare `KeyError` with nothing logged; a row with all six columns parses
successfully; and keys outside the six required columns are ignored. -/
theorem C8_from_dict_amended (src : List (String × String)) :
    (rowGet src "master" = none →
        ProtectionGroup.from_dict src
          = ([Event.log .sourceDataMalformed], .error (.keyError "master")))
  ∧ (∀ m, rowGet src "master" = some m → rowGet src "gh_pages" = none →
        ProtectionGroup.from_dict src
          = ([Event.log .sourceDataMalformed], .error (.keyError "gh_pages")))
  ∧ (∀ m g, rowGet src "master" = some m → rowGet src "gh_pages" = some g →
        rowGet src "default" = none →
        ProtectionGroup.from_dict src
          = ([Event.log .sourceDataMalformed], .error (.keyError "default")))
  ∧ (∀ m g d, rowGet src "master" = some m → rowGet src "gh_pages" = some g →
        rowGet src "default" = some d → rowGet src "owner" = none →
        ProtectionGroup.from_dict src = ([], .error (.keyError "owner")))
  ∧ (∀ m g d ow, rowGet src "master" = some m →
        rowGet src "gh_pages" = some g → rowGet src "default" = some d →
        rowGet src "owner" = some ow → rowGet src "repo_name" = none →
        ProtectionGroup.from_dict src = ([], .error (.keyError "repo_name")))
  ∧ (∀ m g d ow rn, rowGet src "master" = some m →
        rowGet src "gh_pages" = some g → rowGet src "default" = some d →
        rowGet src "owner" = some ow → rowGet src "repo_name" = some rn →
        rowGet src "repo_type" = none →
        ProtectionGroup.from_dict src = ([], .error (.keyError "repo_type")))
  ∧ (∀ m g d ow rn rt, rowGet src "master" = some m →
        rowGet src "gh_pages" = some g → rowGet src "default" = some d →
        rowGet src "owner" = some ow → rowGet src "repo_name" = some rn →
        rowGet src "repo_type" = some rt →
        ProtectionGroup.from_dict src
          = ([], .ok { owner := ow, repo_name := rn, repo_type := rt,
                       master := str_to_bool m, gh_pages := str_to_bool g,
                       default := str_to_bool d }))
  ∧ (∀ k v, k ∉ REQUIRED_COLUMNS →
        ProtectionGroup.from_dict ((k, v) :: src)
          = ProtectionGroup.from_dict src) := by
  refine ⟨?_, ?_, ?_, ?_, ?_, ?_, ?_, ?_⟩
  · intro h1
    simp [ProtectionGroup.from_dict, h1]
  · intro m h1 h2
    simp [ProtectionGroup.from_dict, h1, h2]
  · intro m g h1 h2 h3
    simp [ProtectionGroup.from_dict, h1, h2, h3]
  · intro m g d h1 h2 h3 h4
    simp [ProtectionGroup.from_dict, h1, h2, h3, h4]
  · intro m g d ow h1 h2 h3 h4 h5
    simp [ProtectionGroup.from_dict, h1, h2, h3, h4, h5]
  · intro m g d ow rn h1 h2 h3 h4 h5 h6
    simp [ProtectionGroup.from_dict, h1, h2, h3, h4, h5, h6]
  · intro m g d ow rn rt h1 h2 h3 h4 h5 h6
    simp [ProtectionGroup.from_dict, h1, h2, h3, h4, h5, h6]
  · intro k v hk
    simp only [REQUIRED_COLUMNS, List.mem_insert_iff, List.mem_cons,
      List.mem_singleton, not_or] at hk
    obtain ⟨n1, n2, n3, n4, n5, n6⟩ := by
      simpa [not_or] using hk
    have e1 := rowGet_cons_ne k v "master" src n4
    have e2 := rowGet_cons_ne k v "gh_pages" src n5
    have e3 := rowGet_cons_ne k v "default" src n6
    have e4 := rowGet_cons_ne k v "owner" src n1
    have e5 := rowGet_cons_ne k v "repo_name" src n2
    have e6 := rowGet_cons_ne k v "repo_type" src n3
    simp only [ProtectionGroup.from_dict, e1, e2, e3, e4, e5, e6]

/-- Witness for the amended claim C8: the empty row logs then raises on
`master`; the row lacking only `owner` raises silently; the worked-example
row parses; and an extra column leaves its parse unchanged. -/
theorem C8_amended_witness :
    ProtectionGroup.from_dict []
      = ([Event.log .sourceDataMalformed], .error (.keyError "master"))
  ∧ ProtectionGroup.from_dict c8_missing_owner_row
      = ([], .error (.keyError "owner"))
  ∧ ProtectionGroup.from_dict c1_row
      = ([], .ok { owner := "org", repo_name := "r",
                   repo_type := "Python Library", master := true,
                   gh_pages := false, default := true })
  ∧ ProtectionGroup.from_dict (("extra", "1") :: c1_row)
      = ProtectionGroup.from_dict c1_row := by
  refine ⟨(C8_from_dict_amended []).1 rfl, ?_, ?_, ?_⟩
  · exact (C8_from_dict_amended c8_missing_owner_row).2.2.2.1
      "yes" "no" "no" rfl rfl rfl rfl
  · exact (C8_from_dict_amended c1_row).2.2.2.2.2.2.1
      "yes" "no" "true" "org" "r" "Python Library" rfl rfl rfl rfl rfl rfl
  · exact (C8_from_dict_amended c1_row).2.2.2.2.2.2.2 "extra" "1" (by decide)

/-- A `from_dict` trace is empty or the single malformed-data line. -/
lemma from_dict_logs (row : List (String × String)) :
    (ProtectionGroup.from_dict row).1 = []
  ∨ (ProtectionGroup.from_dict row).1 = [Event.log .sourceDataMalformed] := by
  unfold ProtectionGroup.from_dict
  rcases rowGet row "master" with _ | m
  · right; rfl
  rcases rowGet row "gh_pages" with _ | g
  · right; rfl
  rcases rowGet row "default" with _ | d
  · right; rfl
  rcases rowGet row "owner" with _ | ow
  · left; rfl
  rcases rowGet row "repo_name" with _ | rn
  · left; rfl
  rcases rowGet row "repo_type" with _ | rt
  · left; rfl
  left; rfl

/-- No row parse ever prints the missing-file line. -/
lemma parseRows_no_missing_log (rows : List (List (String × String))) :
    Event.log .repoDataFileMissing ∉ (parseRows rows).1 := by
  induction rows with
  | nil => simp [parseRows]
  | cons row rest ih =>
      have hlog := from_dict_logs row
      rcases hfd : ProtectionGroup.from_dict row with ⟨evs, res⟩
      rw [hfd] at hlog
      have hlog' : evs = [] ∨ evs = [Event.log .sourceDataMalformed] := hlog
      have hmem : Event.log .repoDataFileMissing ∉ evs := by
        rcases hlog' with h | h <;> simp [h]
      cases res with
      | error e => simpa [parseRows, hfd] using hmem
      | ok pg =>
          simp only [parseRows, hfd, List.mem_append]
          intro hc
          rcases hc with hc | hc
          · exact hmem hc
          · exact ih hc

/-- Claim C10: in `parse_repo_list`, the missing-file branch is dead code
for every filesystem and path — its `repo data file does not exist` line is
never printed — because `if not data_path.exists:` tests the bound method
object (always truthy) instead of calling it; a path with no file instead
raises `FileNotFoundError` from the `open` call. -/
theorem C10_missing_file_branch_unreachable
    (fs : String → Option (List (List (String × String)))) (path : String) :
    Event.log .repoDataFileMissing ∉ (parse_repo_list fs path).1
  ∧ (fs path = none →
      parse_repo_list fs path = ([], .error .fileNotFoundError)) := by
  constructor
  · cases hfs : fs path with
    | none => simp [parse_repo_list, truthy, hfs]
    | some rows =>
        simpa [parse_repo_list, truthy, hfs] using
          parseRows_no_missing_log rows
  · intro h
    simp [parse_repo_list, truthy, h]

/-- Witness for claim C10, on the filesystem with no files. -/
theorem C10_witness :
    ((fun _ => (none : Option (List (List (String × String))))) "repos.csv"
        = none)
  ∧ parse_repo_list (fun _ => none) "repos.csv"
      = ([], .error .fileNotFoundError) :=
  ⟨rfl, (C10_missing_file_branch_unreachable (fun _ => none) "repos.csv").2 rfl⟩

end UBP
